import Mathlib

/-!
Shallow embedding of the renderfx math library (Vector2/Vector3, Matrix4x4,
Quaternion, geometry primitives, Rect) over the exact reals, together with
theorems settling the specification claims.

Modelling conventions:
* The C++ templates are generic over a floating-point scalar `T`; here the
  scalar is `ℝ` and `std::numeric_limits<T>::epsilon()` is threaded through
  as an explicit parameter `ε` (the concrete value `machineEps` below is the
  IEEE double machine epsilon `2^-52`).
* Operations that throw (`operator/`, `normalize`, `inverse`, ...) return
  `Option`, `none` standing for the thrown exception.
* In-place mutating operations that can throw are modelled as functions
  returning the final state of the mutated object together with a `Bool`
  that records whether an exception was thrown (C++ exception semantics:
  the object keeps the value it had when the throw happened).
* `std::sqrt`, `std::acos`, `std::sin`, `std::cos`, `std::clamp` become
  `Real.sqrt`, `Real.arccos`, `Real.sin`, `Real.cos`, `min`/`max`.
-/

noncomputable section

open scoped Classical

namespace RFX

/-- `std::numeric_limits<double>::epsilon() = 2^-52`. -/
def machineEps : ℝ := 1 / 4503599627370496

/-- `Vector3<T>` (Vector3.h): ordered triple of scalars. -/
@[ext]
structure Vector3 where
  x : ℝ
  y : ℝ
  z : ℝ

namespace Vector3

/-- `Vector3::operator+` (Vector3.inl:23). -/
def add (a b : Vector3) : Vector3 := ⟨a.x + b.x, a.y + b.y, a.z + b.z⟩

/-- `Vector3::operator-` (Vector3.inl:28). -/
def sub (a b : Vector3) : Vector3 := ⟨a.x - b.x, a.y - b.y, a.z - b.z⟩

/-- `Vector3::operator*(T s)` (Vector3.inl:45). -/
def smul (v : Vector3) (s : ℝ) : Vector3 := ⟨v.x * s, v.y * s, v.z * s⟩

/-- Componentwise `Vector3::operator*(Vector3)` (Vector3.inl:71). -/
def cmul (a b : Vector3) : Vector3 := ⟨a.x * b.x, a.y * b.y, a.z * b.z⟩

/-- `Vector3::dot` (Vector3.inl:76). -/
def dot (a b : Vector3) : ℝ := a.x * b.x + a.y * b.y + a.z * b.z

/-- `Vector3::cross` (Vector3.inl:81). -/
def cross (a b : Vector3) : Vector3 :=
  ⟨a.y * b.z - a.z * b.y, a.z * b.x - a.x * b.z, a.x * b.y - a.y * b.x⟩

/-- `Vector3::lengthSquared` (Vector3.inl:86). -/
def lengthSquared (v : Vector3) : ℝ := v.x * v.x + v.y * v.y + v.z * v.z

/-- `Vector3::length` (Vector3.inl:91). -/
def length (v : Vector3) : ℝ := Real.sqrt v.lengthSquared

/-- `Vector3::operator/(T s)` (Vector3.inl:50): throws `invalid_argument`
("Division by zero in Vector3") when `|s| < ε`. -/
def divO (ε : ℝ) (v : Vector3) (s : ℝ) : Option Vector3 :=
  if |s| < ε then none else some ⟨v.x / s, v.y / s, v.z / s⟩

/-- `Vector3::operator/=(T s)` (Vector3.inl:63), as a state transformer:
returns the state of `*this` after the call and whether it threw.  The
divisor check happens before any component is written. -/
def divAssign (ε : ℝ) (v : Vector3) (s : ℝ) : Vector3 × Bool :=
  if |s| < ε then (v, true) else (⟨v.x / s, v.y / s, v.z / s⟩, false)

/-- `Vector3::normalized` (Vector3.inl:96): throws `domain_error` when the
length is below `ε`, otherwise returns `*this / len` (whose own divisor
check also applies). -/
def normalized (ε : ℝ) (v : Vector3) : Option Vector3 :=
  if v.length < ε then none else divO ε v v.length

/-- `Vector3::normalize` (Vector3.inl:104), in-place form: throws when the
length is below `ε`, otherwise performs `*this /= len`. -/
def normalizeInPlace (ε : ℝ) (v : Vector3) : Vector3 × Bool :=
  if v.length < ε then (v, true) else divAssign ε v v.length

/-- `Vector3::lerp` (Vector3.inl:137). -/
def lerp (a b : Vector3) (t : ℝ) : Vector3 := a.add ((b.sub a).smul t)

/-- `Vector3::slerp` (Vector3.inl:142): clamps the dot product into
`[-1,1]`, takes `theta = acos(dot) * t`, normalizes `b - a * dot` and
returns `a * cos(theta) + relativeVec * sin(theta)`.  `std::clamp(d,-1,1)`
is `min 1 (max (-1) d)`. -/
def slerp (ε : ℝ) (a b : Vector3) (t : ℝ) : Option Vector3 :=
  let d := min 1 (max (-1) (a.dot b))
  let theta := Real.arccos d * t
  match normalized ε (b.sub (a.smul d)) with
  | none => none
  | some rel => some ((a.smul (Real.cos theta)).add (rel.smul (Real.sin theta)))

end Vector3

/-- `Vector2<T>` (Vector2.h). -/
@[ext]
structure Vector2 where
  x : ℝ
  y : ℝ

namespace Vector2

/-- `Vector2::operator/=(T s)` (Vector2.inl:63), as a state transformer:
returns the state of `*this` after the call and whether it threw. -/
def divAssign (ε : ℝ) (v : Vector2) (s : ℝ) : Vector2 × Bool :=
  if |s| < ε then (v, true) else (⟨v.x / s, v.y / s⟩, false)

/-- `Vector2::lengthSquared` (Vector2.inl:81). -/
def lengthSquared (v : Vector2) : ℝ := v.x * v.x + v.y * v.y

/-- `Vector2::length` (Vector2.inl:86). -/
def length (v : Vector2) : ℝ := Real.sqrt v.lengthSquared

/-- `Vector2::normalize` (Vector2.inl:99), in-place form. -/
def normalizeInPlace (ε : ℝ) (v : Vector2) : Vector2 × Bool :=
  if v.length < ε then (v, true) else divAssign ε v v.length

end Vector2

/-- `Matrix4x4<T>` (Matrix4x4.h): row-major 4x4 grid; `M i j` is
`data[i][j]`, i.e. the `(row, col)` accessor. -/
def Matrix4x4 : Type := Fin 4 → Fin 4 → ℝ

namespace Matrix4x4

/-- `Matrix4x4` default constructor (Matrix4x4.inl:9): the identity. -/
def identityM : Matrix4x4 := fun i j => if i = j then 1 else 0

/-- `Matrix4x4::operator*(Matrix4x4)` (Matrix4x4.inl:29): the `k`-loop
`result(i,j) += (*this)(i,k) * other(k,j)` unrolled. -/
def matMul (A B : Matrix4x4) : Matrix4x4 := fun i j =>
  A i 0 * B 0 j + A i 1 * B 1 j + A i 2 * B 2 j + A i 3 * B 3 j

/-- The four cofactors `inv(0,0), inv(1,0), inv(2,0), inv(3,0)` assigned by
`Matrix4x4::inverse` (Matrix4x4.inl:190-216), in that order. -/
def invCol0 (M : Matrix4x4) : ℝ × ℝ × ℝ × ℝ :=
  (M 1 1 * M 2 2 * M 3 3 - M 1 1 * M 2 3 * M 3 2 - M 2 1 * M 1 2 * M 3 3 +
     M 2 1 * M 1 3 * M 3 2 + M 3 1 * M 1 2 * M 2 3 - M 3 1 * M 1 3 * M 2 2,
   -(M 1 0) * M 2 2 * M 3 3 + M 1 0 * M 2 3 * M 3 2 + M 2 0 * M 1 2 * M 3 3 -
     M 2 0 * M 1 3 * M 3 2 - M 3 0 * M 1 2 * M 2 3 + M 3 0 * M 1 3 * M 2 2,
   M 1 0 * M 2 1 * M 3 3 - M 1 0 * M 2 3 * M 3 1 - M 2 0 * M 1 1 * M 3 3 +
     M 2 0 * M 1 3 * M 3 1 + M 3 0 * M 1 1 * M 2 3 - M 3 0 * M 1 3 * M 2 1,
   -(M 1 0) * M 2 1 * M 3 2 + M 1 0 * M 2 2 * M 3 1 + M 2 0 * M 1 1 * M 3 2 -
     M 2 0 * M 1 2 * M 3 1 - M 3 0 * M 1 1 * M 2 2 + M 3 0 * M 1 2 * M 2 1)

/-- `Matrix4x4::inverse` (Matrix4x4.inl:186-233).  `inv` is
default-constructed (identity); only `inv(0,0), inv(1,0), inv(2,0),
inv(3,0)` are then assigned; `det` is the dot product of row 0 with those
four values; if `|det| < ε` a `runtime_error` is thrown (`none`), otherwise
every entry of `inv` is multiplied by `1/det`. -/
def inverse (ε : ℝ) (M : Matrix4x4) : Option Matrix4x4 :=
  let c := invCol0 M
  let det := M 0 0 * c.1 + M 0 1 * c.2.1 + M 0 2 * c.2.2.1 + M 0 3 * c.2.2.2
  if |det| < ε then none
  else
    some (fun i j =>
      (if j = 0 then
        (if i = 0 then c.1 else if i = 1 then c.2.1 else if i = 2 then c.2.2.1 else c.2.2.2)
       else if i = j then 1 else 0) * (1 / det))

/-- Componentwise closeness within `ε`, in the style of the library's
epsilon equality (`Vector3::operator==`, strict `<` on each entry). -/
def approxEq (ε : ℝ) (A B : Matrix4x4) : Prop :=
  ∀ i j, |A i j - B i j| < ε

end Matrix4x4

/-- `Quaternion<T>` (Quaternion.h): scalar-first `(w,x,y,z)`. -/
@[ext]
structure Quaternion where
  w : ℝ
  x : ℝ
  y : ℝ
  z : ℝ

namespace Quaternion

/-- `Quaternion::magnitude` (Quaternion.inl:42). -/
def magnitude (q : Quaternion) : ℝ :=
  Real.sqrt (q.w * q.w + q.x * q.x + q.y * q.y + q.z * q.z)

/-- `Quaternion::normalized` (Quaternion.inl:47): throws `runtime_error`
when the magnitude is below `ε`. -/
def normalized (ε : ℝ) (q : Quaternion) : Option Quaternion :=
  if q.magnitude < ε then none
  else some ⟨q.w / q.magnitude, q.x / q.magnitude, q.y / q.magnitude, q.z / q.magnitude⟩

/-- Componentwise closeness within `ε` (strict `<` on each component, in
the style of the library's epsilon equality). -/
def approxEq (ε : ℝ) (p q : Quaternion) : Prop :=
  |p.w - q.w| < ε ∧ |p.x - q.x| < ε ∧ |p.y - q.y| < ε ∧ |p.z - q.z| < ε

/-- `Quaternion::slerp` (Quaternion.inl:140-172): flips `q2`'s sign when
the dot product is negative (shortest arc); for `dot > 0.9995` linearly
interpolates the components and renormalizes; otherwise uses the spherical
formula with `theta_0 = acos(dot)`. -/
def slerp (ε : ℝ) (q1 q2 : Quaternion) (t : ℝ) : Option Quaternion :=
  let dot0 := q1.w * q2.w + q1.x * q2.x + q1.y * q2.y + q1.z * q2.z
  let q2a : Quaternion := if dot0 < 0 then ⟨-q2.w, -q2.x, -q2.y, -q2.z⟩ else q2
  let dot := if dot0 < 0 then -dot0 else dot0
  if dot > 0.9995 then
    normalized ε ⟨q1.w + t * (q2a.w - q1.w), q1.x + t * (q2a.x - q1.x),
                  q1.y + t * (q2a.y - q1.y), q1.z + t * (q2a.z - q1.z)⟩
  else
    let theta0 := Real.arccos dot
    let theta := theta0 * t
    let s0 := Real.cos theta - dot * Real.sin theta / Real.sin theta0
    let s1 := Real.sin theta / Real.sin theta0
    some ⟨s0 * q1.w + s1 * q2a.w, s0 * q1.x + s1 * q2a.x,
          s0 * q1.y + s1 * q2a.y, s0 * q1.z + s1 * q2a.z⟩

end Quaternion

/-- `Ray<T>` (Geometry.h): origin and direction. -/
@[ext]
structure Ray where
  origin : Vector3
  direction : Vector3

namespace Ray

/-- `Ray::Ray(origin, direction)` (Geometry.inl:11): stores the direction
normalized; `normalized` can throw, hence `Option`. -/
def make (ε : ℝ) (o d : Vector3) : Option Ray :=
  (Vector3.normalized ε d).map (fun dn => ⟨o, dn⟩)

end Ray

/-- `AABB<T>` (Geometry.h): min/max corners. -/
@[ext]
structure AABB where
  min : Vector3
  max : Vector3

namespace AABB

/-- One iteration of the slab loop in `AABB::intersects`
(Geometry.inl:30-47) for the axis with slab bounds `[lo, hi]`, ray origin
component `o` and direction component `d`.  The running interval is
`none` for the initial `(-∞, +∞)` (both bounds are always updated
together, so a single `Option` suffices); the outer `none` is the early
`return false`. -/
def slabStep (ε lo hi o d : ℝ) (st : Option (ℝ × ℝ)) : Option (Option (ℝ × ℝ)) :=
  if |d| < ε then
    if o < lo ∨ o > hi then none else some st
  else
    let t1 := (lo - o) / d
    let t2 := (hi - o) / d
    let a := Min.min t1 t2
    let b := Max.max t1 t2
    let tMin := match st with | none => a | some s => Max.max s.1 a
    let tMax := match st with | none => b | some s => Min.min s.2 b
    if tMin > tMax then none else some (some (tMin, tMax))

/-- `AABB::intersects(ray, tMin, tMax)` (Geometry.inl:26-50): the slab
method over axes `x, y, z` starting from `tMin = -∞`, `tMax = +∞`.
`none` is `return false`; `some st` is `return true` with the final
`[tMin, tMax]` (`st = none` meaning both still infinite). -/
def intersects (ε : ℝ) (box : AABB) (r : Ray) : Option (Option (ℝ × ℝ)) :=
  (slabStep ε box.min.x box.max.x r.origin.x r.direction.x none).bind
    (fun s1 => (slabStep ε box.min.y box.max.y r.origin.y r.direction.y s1).bind
      (fun s2 => slabStep ε box.min.z box.max.z r.origin.z r.direction.z s2))

end AABB

/-- `Plane<T>` (Geometry.h): normal and signed distance. -/
@[ext]
structure Plane where
  normal : Vector3
  distance : ℝ

namespace Plane

/-- `Plane::Plane(normal, distance)` (Geometry.inl:63): stores the normal
normalized, keeps the distance. -/
def fromNormalDistance (ε : ℝ) (n : Vector3) (d : ℝ) : Option Plane :=
  (Vector3.normalized ε n).map (fun nn => ⟨nn, d⟩)

/-- `Plane::Plane(normal, point)` (Geometry.inl:67): stores the normal
normalized and sets `distance = -normal.dot(point)` where `normal` is the
(unnormalized) constructor argument. -/
def fromPoint (ε : ℝ) (n p : Vector3) : Option Plane :=
  (Vector3.normalized ε n).map (fun nn => ⟨nn, -(n.dot p)⟩)

/-- `Plane::distanceToPoint` (Geometry.inl:71). -/
def distanceToPoint (pl : Plane) (p : Vector3) : ℝ :=
  pl.normal.dot p + pl.distance

/-- `Plane::intersects(ray, t)` (Geometry.inl:76-83): `none` when the
direction is near-parallel (`|denom| < ε`) or the solved `t` is negative;
otherwise `some t`. -/
def intersects (ε : ℝ) (pl : Plane) (r : Ray) : Option ℝ :=
  let denom := pl.normal.dot r.direction
  if |denom| < ε then none
  else
    let t := -(pl.normal.dot r.origin + pl.distance) / denom
    if t ≥ 0 then some t else none

end Plane

/-- The parameter `t = -(normal·origin + distance) / (normal·direction)`
solved for in `Plane::intersects` (Geometry.inl:81). -/
def planeRayT (pl : Plane) (r : Ray) : ℝ :=
  -(pl.normal.dot r.origin + pl.distance) / pl.normal.dot r.direction

/-- `Sphere<T>` (Geometry.h): center and radius. -/
@[ext]
structure Sphere where
  center : Vector3
  radius : ℝ

namespace Sphere

/-- `Sphere::contains` (Geometry.inl:92). -/
def contains (s : Sphere) (p : Vector3) : Prop :=
  (p.sub s.center).lengthSquared ≤ s.radius * s.radius

/-- `Sphere::intersects(ray, t)` (Geometry.inl:97-110): geometric
quadratic solve; `none` when the origin is outside and moving away
(`c > 0 ∧ b > 0`) or the discriminant is negative; otherwise the near
root clamped to `0`. -/
def intersects (s : Sphere) (r : Ray) : Option ℝ :=
  let m := r.origin.sub s.center
  let b := m.dot r.direction
  let c := m.dot m - s.radius * s.radius
  if c > 0 ∧ b > 0 then none
  else
    let disc := b * b - c
    if disc < 0 then none
    else
      let t := -b - Real.sqrt disc
      some (if t < 0 then 0 else t)

end Sphere

namespace Frustum

/-- The unnormalized normals written by the first loop of
`Frustum::updatePlanes` (Geometry.inl:119-126): for component `i`,
`planes[0].normal[i] = vp(i,2) + vp(i,3)`, `planes[1].normal[i] =
-vp(i,2) + vp(i,3)`, `planes[2].normal[i] = vp(i,0) + vp(i,3)`, etc. -/
def rawNormal (vp : Matrix4x4) (k : Fin 6) : Vector3 :=
  match k with
  | ⟨0, _⟩ => ⟨vp 0 2 + vp 0 3, vp 1 2 + vp 1 3, vp 2 2 + vp 2 3⟩
  | ⟨1, _⟩ => ⟨-vp 0 2 + vp 0 3, -vp 1 2 + vp 1 3, -vp 2 2 + vp 2 3⟩
  | ⟨2, _⟩ => ⟨vp 0 0 + vp 0 3, vp 1 0 + vp 1 3, vp 2 0 + vp 2 3⟩
  | ⟨3, _⟩ => ⟨-vp 0 0 + vp 0 3, -vp 1 0 + vp 1 3, -vp 2 0 + vp 2 3⟩
  | ⟨4, _⟩ => ⟨vp 0 1 + vp 0 3, vp 1 1 + vp 1 3, vp 2 1 + vp 2 3⟩
  | ⟨_ + 5, _⟩ => ⟨-vp 0 1 + vp 0 3, -vp 1 1 + vp 1 3, -vp 2 1 + vp 2 3⟩

/-- Plane `k` as produced by the second loop of `Frustum::updatePlanes`
(Geometry.inl:128-133): `distance = vp(3,3) - vp(3, k/2)`, then both the
normal (via the checked `operator/=`) and the distance are divided by the
normal's length. -/
def extractPlane (ε : ℝ) (vp : Matrix4x4) (k : Fin 6) : Option Plane :=
  let n := rawNormal vp k
  let d := vp 3 3 - vp 3 ⟨k.val / 2, by omega⟩
  match Vector3.divO ε n n.length with
  | none => none
  | some nn => some ⟨nn, d / n.length⟩

/-- `Frustum::updatePlanes` (Geometry.inl:118-134): all six planes;
`none` when any plane's normalization throws. -/
def updatePlanes (ε : ℝ) (vp : Matrix4x4) : Option (Fin 6 → Plane) :=
  match extractPlane ε vp 0, extractPlane ε vp 1, extractPlane ε vp 2,
        extractPlane ε vp 3, extractPlane ε vp 4, extractPlane ε vp 5 with
  | some p0, some p1, some p2, some p3, some p4, some p5 =>
      some (fun k => match k with
        | ⟨0, _⟩ => p0
        | ⟨1, _⟩ => p1
        | ⟨2, _⟩ => p2
        | ⟨3, _⟩ => p3
        | ⟨4, _⟩ => p4
        | ⟨_ + 5, _⟩ => p5)
  | _, _, _, _, _, _ => none

/-- Modelled from the claim's wording (the standard Gribb–Hartmann
column extraction): the fourth coefficient of plane `k` is `vp(3,3)`
plus-or-minus the entry of row 3 in the same column used for that plane's
normal, with the same sign as in the normal combination. -/
def ghDistanceRaw (vp : Matrix4x4) (k : Fin 6) : ℝ :=
  match k with
  | ⟨0, _⟩ => vp 3 3 + vp 3 2
  | ⟨1, _⟩ => vp 3 3 - vp 3 2
  | ⟨2, _⟩ => vp 3 3 + vp 3 0
  | ⟨3, _⟩ => vp 3 3 - vp 3 0
  | ⟨4, _⟩ => vp 3 3 + vp 3 1
  | ⟨_ + 5, _⟩ => vp 3 3 - vp 3 1

/-- Modelled from the claim's wording: the Gribb–Hartmann plane `k`,
normalized by the normal's length. -/
def ghPlane (vp : Matrix4x4) (k : Fin 6) : Plane :=
  ⟨(rawNormal vp k).smul (rawNormal vp k).length⁻¹,
   ghDistanceRaw vp k / (rawNormal vp k).length⟩

end Frustum

/-- `Rect<T>` (Rect.h): 2D axis-aligned rectangle. -/
@[ext]
structure Rect where
  x : ℝ
  y : ℝ
  width : ℝ
  height : ℝ

namespace Rect

/-- `Rect::right` (Rect.inl:21). -/
def right (r : Rect) : ℝ := r.x + r.width

/-- `Rect::bottom` (Rect.inl:27). -/
def bottom (r : Rect) : ℝ := r.y + r.height

/-- `Rect::intersects` (Rect.inl:45-48). -/
def intersects (a b : Rect) : Prop :=
  ¬(a.right ≤ b.x ∨ b.right ≤ a.x ∨ a.bottom ≤ b.y ∨ b.bottom ≤ a.y)

/-- `Rect::intersection` (Rect.inl:51-63): the overlap rectangle when the
strict-overlap test passes, otherwise the default rectangle `(0,0,0,0)`. -/
def intersection (a b : Rect) : Rect :=
  let l := max a.x b.x
  let t := max a.y b.y
  let r := min a.right b.right
  let bo := min a.bottom b.bottom
  if l < r ∧ t < bo then ⟨l, t, r - l, bo - t⟩ else ⟨0, 0, 0, 0⟩

end Rect

end RFX

/-- The concrete matrix `diag(2, 1, 1, 1)`; its determinant is `2`, far
above machine epsilon. -/
def mDiag2 : RFX.Matrix4x4 := fun i j =>
  match i.val, j.val with
  | 0, 0 => 2
  | 1, 1 => 1
  | 2, 2 => 1
  | 3, 3 => 1
  | _, _ => 0

/-- C1 (against the claim): `Matrix4x4::inverse` only fills in the first
column of the adjugate; on `M = diag(2,1,1,1)` the product
`M * M.inverse()` has entry `(1,1) = 1/2`, which differs from the identity
entry `1` by `1/2 ≥ machine epsilon`, so `M * M.inverse()` is not the
identity within epsilon even though `|det M| = 2` is far above epsilon. -/
theorem c1_matrix_inverse_eval :
    (RFX.Matrix4x4.inverse RFX.machineEps mDiag2).map
        (fun N => RFX.Matrix4x4.matMul mDiag2 N 1 1) = some (1 / 2) ∧
    RFX.machineEps < |1 / 2 - RFX.Matrix4x4.identityM 1 1| := by
  have habs2 : |(2 : ℝ)| = 2 := abs_of_pos (by norm_num)
  constructor
  · unfold RFX.Matrix4x4.inverse RFX.Matrix4x4.invCol0 RFX.Matrix4x4.matMul
    norm_num [show mDiag2 0 0 = (2 : ℝ) from rfl, show mDiag2 0 1 = (0 : ℝ) from rfl,
      show mDiag2 0 2 = (0 : ℝ) from rfl, show mDiag2 0 3 = (0 : ℝ) from rfl,
      show mDiag2 1 0 = (0 : ℝ) from rfl, show mDiag2 1 1 = (1 : ℝ) from rfl,
      show mDiag2 1 2 = (0 : ℝ) from rfl, show mDiag2 1 3 = (0 : ℝ) from rfl,
      show mDiag2 2 0 = (0 : ℝ) from rfl, show mDiag2 2 1 = (0 : ℝ) from rfl,
      show mDiag2 2 2 = (1 : ℝ) from rfl, show mDiag2 2 3 = (0 : ℝ) from rfl,
      show mDiag2 3 0 = (0 : ℝ) from rfl, show mDiag2 3 1 = (0 : ℝ) from rfl,
      show mDiag2 3 2 = (0 : ℝ) from rfl, show mDiag2 3 3 = (1 : ℝ) from rfl,
      habs2, RFX.machineEps]
  · have h1 : |(1 : ℝ) / 2 - RFX.Matrix4x4.identityM 1 1| = 1 / 2 := by
      have hid : RFX.Matrix4x4.identityM 1 1 = 1 := by
        simp [RFX.Matrix4x4.identityM]
      rw [hid, abs_sub_comm, show (1 : ℝ) - 1 / 2 = 1 / 2 by norm_num]
      exact abs_of_pos (by norm_num)
    rw [h1]
    norm_num [RFX.machineEps]

/-- The concrete view-projection matrix for C2: the identity with the
extra entry `(3,2) = 1` (a nontrivial fourth row, as any perspective
projection has). -/
def mC2 : RFX.Matrix4x4 := fun i j =>
  match i.val, j.val with
  | 0, 0 => 1
  | 1, 1 => 1
  | 2, 2 => 1
  | 3, 2 => 1
  | 3, 3 => 1
  | _, _ => 0

/-- C2 (against the claim): `Frustum::updatePlanes` computes plane 0's
distance as `VP(3,3) - VP(3,0)`, i.e. from row 3, column `0/2 = 0` with a
fixed minus sign, while plane 0's normal is built from columns 2 and 3.
On `mC2` (whose normals are unit, so normalization divides by 1) the code
produces distance `1` for plane 0, while the Gribb–Hartmann extraction the
claim describes — distance `VP(3,3) + VP(3,2)` from the same column 2 used
for the normal — gives `2`; the two differ by `1 ≥ machine epsilon`. -/
theorem c2_frustum_distance_eval :
    (RFX.Frustum.updatePlanes RFX.machineEps mC2).map (fun f => f 0) =
      some ⟨⟨0, 0, 1⟩, 1⟩ ∧
    RFX.Frustum.ghPlane mC2 0 = ⟨⟨0, 0, 1⟩, 2⟩ ∧
    RFX.machineEps < |(1 : ℝ) - 2| := by
  have hn0 : RFX.Frustum.rawNormal mC2 0 = ⟨0, 0, 1⟩ := by
    show (⟨mC2 0 2 + mC2 0 3, mC2 1 2 + mC2 1 3, mC2 2 2 + mC2 2 3⟩ : RFX.Vector3) = ⟨0, 0, 1⟩
    norm_num [show mC2 0 2 = (0 : ℝ) from rfl, show mC2 0 3 = (0 : ℝ) from rfl,
      show mC2 1 2 = (0 : ℝ) from rfl, show mC2 1 3 = (0 : ℝ) from rfl,
      show mC2 2 2 = (1 : ℝ) from rfl, show mC2 2 3 = (0 : ℝ) from rfl]
  have hn1 : RFX.Frustum.rawNormal mC2 1 = ⟨0, 0, -1⟩ := by
    show (⟨-mC2 0 2 + mC2 0 3, -mC2 1 2 + mC2 1 3, -mC2 2 2 + mC2 2 3⟩ : RFX.Vector3) =
      ⟨0, 0, -1⟩
    norm_num [show mC2 0 2 = (0 : ℝ) from rfl, show mC2 0 3 = (0 : ℝ) from rfl,
      show mC2 1 2 = (0 : ℝ) from rfl, show mC2 1 3 = (0 : ℝ) from rfl,
      show mC2 2 2 = (1 : ℝ) from rfl, show mC2 2 3 = (0 : ℝ) from rfl]
  have hn2 : RFX.Frustum.rawNormal mC2 2 = ⟨1, 0, 0⟩ := by
    show (⟨mC2 0 0 + mC2 0 3, mC2 1 0 + mC2 1 3, mC2 2 0 + mC2 2 3⟩ : RFX.Vector3) = ⟨1, 0, 0⟩
    norm_num [show mC2 0 0 = (1 : ℝ) from rfl, show mC2 0 3 = (0 : ℝ) from rfl,
      show mC2 1 0 = (0 : ℝ) from rfl, show mC2 1 3 = (0 : ℝ) from rfl,
      show mC2 2 0 = (0 : ℝ) from rfl, show mC2 2 3 = (0 : ℝ) from rfl]
  have hn3 : RFX.Frustum.rawNormal mC2 3 = ⟨-1, 0, 0⟩ := by
    show (⟨-mC2 0 0 + mC2 0 3, -mC2 1 0 + mC2 1 3, -mC2 2 0 + mC2 2 3⟩ : RFX.Vector3) =
      ⟨-1, 0, 0⟩
    norm_num [show mC2 0 0 = (1 : ℝ) from rfl, show mC2 0 3 = (0 : ℝ) from rfl,
      show mC2 1 0 = (0 : ℝ) from rfl, show mC2 1 3 = (0 : ℝ) from rfl,
      show mC2 2 0 = (0 : ℝ) from rfl, show mC2 2 3 = (0 : ℝ) from rfl]
  have hn4 : RFX.Frustum.rawNormal mC2 4 = ⟨0, 1, 0⟩ := by
    show (⟨mC2 0 1 + mC2 0 3, mC2 1 1 + mC2 1 3, mC2 2 1 + mC2 2 3⟩ : RFX.Vector3) = ⟨0, 1, 0⟩
    norm_num [show mC2 0 1 = (0 : ℝ) from rfl, show mC2 0 3 = (0 : ℝ) from rfl,
      show mC2 1 1 = (1 : ℝ) from rfl, show mC2 1 3 = (0 : ℝ) from rfl,
      show mC2 2 1 = (0 : ℝ) from rfl, show mC2 2 3 = (0 : ℝ) from rfl]
  have hn5 : RFX.Frustum.rawNormal mC2 5 = ⟨0, -1, 0⟩ := by
    show (⟨-mC2 0 1 + mC2 0 3, -mC2 1 1 + mC2 1 3, -mC2 2 1 + mC2 2 3⟩ : RFX.Vector3) =
      ⟨0, -1, 0⟩
    norm_num [show mC2 0 1 = (0 : ℝ) from rfl, show mC2 0 3 = (0 : ℝ) from rfl,
      show mC2 1 1 = (1 : ℝ) from rfl, show mC2 1 3 = (0 : ℝ) from rfl,
      show mC2 2 1 = (0 : ℝ) from rfl, show mC2 2 3 = (0 : ℝ) from rfl]
  have hlZ : RFX.Vector3.length ⟨0, 0, 1⟩ = 1 := by
    unfold RFX.Vector3.length RFX.Vector3.lengthSquared
    norm_num
  have hlZm : RFX.Vector3.length ⟨0, 0, -1⟩ = 1 := by
    unfold RFX.Vector3.length RFX.Vector3.lengthSquared
    norm_num
  have hlX : RFX.Vector3.length ⟨1, 0, 0⟩ = 1 := by
    unfold RFX.Vector3.length RFX.Vector3.lengthSquared
    norm_num
  have hlXm : RFX.Vector3.length ⟨-1, 0, 0⟩ = 1 := by
    unfold RFX.Vector3.length RFX.Vector3.lengthSquared
    norm_num
  have hlY : RFX.Vector3.length ⟨0, 1, 0⟩ = 1 := by
    unfold RFX.Vector3.length RFX.Vector3.lengthSquared
    norm_num
  have hlYm : RFX.Vector3.length ⟨0, -1, 0⟩ = 1 := by
    unfold RFX.Vector3.length RFX.Vector3.lengthSquared
    norm_num
  have h0 : RFX.Frustum.extractPlane RFX.machineEps mC2 0 = some ⟨⟨0, 0, 1⟩, 1⟩ := by
    unfold RFX.Frustum.extractPlane RFX.Vector3.divO
    simp only [hn0, hlZ, abs_one]
    norm_num [RFX.machineEps, show mC2 3 3 = (1 : ℝ) from rfl,
      show mC2 3 0 = (0 : ℝ) from rfl,
      show mC2 3 ⟨(0 : Fin 6).val / 2, by omega⟩ = (0 : ℝ) from rfl]
  have h1 : RFX.Frustum.extractPlane RFX.machineEps mC2 1 = some ⟨⟨0, 0, -1⟩, 1⟩ := by
    unfold RFX.Frustum.extractPlane RFX.Vector3.divO
    simp only [hn1, hlZm, abs_one]
    norm_num [RFX.machineEps, show mC2 3 3 = (1 : ℝ) from rfl,
      show mC2 3 0 = (0 : ℝ) from rfl,
      show mC2 3 ⟨(1 : Fin 6).val / 2, by omega⟩ = (0 : ℝ) from rfl]
  have h2 : RFX.Frustum.extractPlane RFX.machineEps mC2 2 = some ⟨⟨1, 0, 0⟩, 1⟩ := by
    unfold RFX.Frustum.extractPlane RFX.Vector3.divO
    simp only [hn2, hlX, abs_one]
    norm_num [RFX.machineEps, show mC2 3 3 = (1 : ℝ) from rfl,
      show mC2 3 1 = (0 : ℝ) from rfl,
      show mC2 3 ⟨(2 : Fin 6).val / 2, by omega⟩ = (0 : ℝ) from rfl]
  have h3 : RFX.Frustum.extractPlane RFX.machineEps mC2 3 = some ⟨⟨-1, 0, 0⟩, 1⟩ := by
    unfold RFX.Frustum.extractPlane RFX.Vector3.divO
    simp only [hn3, hlXm, abs_one]
    norm_num [RFX.machineEps, show mC2 3 3 = (1 : ℝ) from rfl,
      show mC2 3 1 = (0 : ℝ) from rfl,
      show mC2 3 ⟨(3 : Fin 6).val / 2, by omega⟩ = (0 : ℝ) from rfl]
  have hj4 : mC2 3 (⟨(4 : Fin 6).val / 2, by omega⟩ : Fin 4) = (1 : ℝ) := rfl
  have hj5 : mC2 3 (⟨(5 : Fin 6).val / 2, by omega⟩ : Fin 4) = (1 : ℝ) := rfl
  have h4 : RFX.Frustum.extractPlane RFX.machineEps mC2 4 = some ⟨⟨0, 1, 0⟩, 0⟩ := by
    unfold RFX.Frustum.extractPlane RFX.Vector3.divO
    simp only [hn4, hlY, abs_one]
    norm_num [RFX.machineEps, show mC2 3 3 = (1 : ℝ) from rfl,
      show mC2 3 2 = (1 : ℝ) from rfl, hj4]
  have h5 : RFX.Frustum.extractPlane RFX.machineEps mC2 5 = some ⟨⟨0, -1, 0⟩, 0⟩ := by
    unfold RFX.Frustum.extractPlane RFX.Vector3.divO
    simp only [hn5, hlYm, abs_one]
    norm_num [RFX.machineEps, show mC2 3 3 = (1 : ℝ) from rfl,
      show mC2 3 2 = (1 : ℝ) from rfl, hj5]
  refine ⟨?_, ?_, ?_⟩
  · unfold RFX.Frustum.updatePlanes
    rw [h0, h1, h2, h3, h4, h5]
    rfl
  · unfold RFX.Frustum.ghPlane RFX.Vector3.smul
    rw [hn0, hlZ]
    norm_num [show RFX.Frustum.ghDistanceRaw mC2 0 = mC2 3 3 + mC2 3 2 from rfl,
      show mC2 3 3 = (1 : ℝ) from rfl, show mC2 3 2 = (1 : ℝ) from rfl]
  · rw [show |(1 : ℝ) - 2| = 1 by rw [abs_sub_comm]; norm_num]
    norm_num [RFX.machineEps]

/-- C3 (against the claim): `Plane::Plane(normal, point)` computes the
distance from the unnormalized constructor argument while storing the
normalized normal.  With `n = (2,0,0)` (length 2, far above epsilon) and
`p = (1,0,0)` the constructed plane is `((1,0,0), -2)` and
`distanceToPoint(p) = -1`, which differs from the claimed `0` by
`1 ≥ machine epsilon`: the constructed plane does not contain `p`. -/
theorem c3_plane_from_point_eval :
    RFX.Plane.fromPoint RFX.machineEps ⟨2, 0, 0⟩ ⟨1, 0, 0⟩ = some ⟨⟨1, 0, 0⟩, -2⟩ ∧
    RFX.Plane.distanceToPoint ⟨⟨1, 0, 0⟩, -2⟩ ⟨1, 0, 0⟩ = -1 ∧
    RFX.machineEps < |(-1 : ℝ) - 0| := by
  have hs4 : Real.sqrt 4 = 2 := by
    rw [show (4 : ℝ) = 2 ^ 2 by norm_num]
    exact Real.sqrt_sq (by norm_num)
  have hlen : RFX.Vector3.length ⟨2, 0, 0⟩ = 2 := by
    unfold RFX.Vector3.length RFX.Vector3.lengthSquared
    norm_num [hs4]
  have habs2 : |(2 : ℝ)| = 2 := abs_of_pos (by norm_num)
  refine ⟨?_, ?_, ?_⟩
  · unfold RFX.Plane.fromPoint RFX.Vector3.normalized RFX.Vector3.divO RFX.Vector3.dot
    rw [hlen]
    norm_num [RFX.machineEps, habs2]
  · unfold RFX.Plane.distanceToPoint RFX.Vector3.dot
    norm_num
  · rw [show |(-1 : ℝ) - 0| = 1 by rw [abs_sub_comm]; norm_num]
    norm_num [RFX.machineEps]

/-- C4 counterexample: the claim quantifies over every quaternion, but for
the non-unit `q = (2,0,0,0)` and `t = 0`, `slerp(q, q, 0)` takes the
`dot > 0.9995` branch and renormalizes, returning `(1,0,0,0)`, whose `w`
component differs from `q`'s by `1 ≥ machine epsilon`. -/
theorem c4_slerp_identity_counterexample :
    RFX.Quaternion.slerp RFX.machineEps ⟨2, 0, 0, 0⟩ ⟨2, 0, 0, 0⟩ 0 = some ⟨1, 0, 0, 0⟩ ∧
    RFX.machineEps < |(1 : ℝ) - 2| := by
  have hs4 : Real.sqrt 4 = 2 := by
    rw [show (4 : ℝ) = 2 ^ 2 by norm_num]
    exact Real.sqrt_sq (by norm_num)
  constructor
  · unfold RFX.Quaternion.slerp RFX.Quaternion.normalized RFX.Quaternion.magnitude
    norm_num [hs4, RFX.machineEps]
  · rw [show |(1 : ℝ) - 2| = 1 by rw [abs_sub_comm]; norm_num]
    norm_num [RFX.machineEps]

/-- C4 as amended: for every unit quaternion `q` and every `t`,
`slerp(q, q, t)` returns exactly `q` (the dot product is `1`, the
linear-interpolation branch is taken, interpolation between equal
endpoints is the identity, and renormalization divides by `1`). -/
theorem c4_slerp_identity_unit (ε t : ℝ) (q : RFX.Quaternion)
    (h1 : q.w * q.w + q.x * q.x + q.y * q.y + q.z * q.z = 1) (hε : ε ≤ 1) :
    RFX.Quaternion.slerp ε q q t = some q := by
  have hlt : ¬ ((1 : ℝ) < 0) := by norm_num
  have hgt : (1 : ℝ) > 0.9995 := by norm_num
  have hεlt : ¬ ((1 : ℝ) < ε) := not_lt.mpr hε
  unfold RFX.Quaternion.slerp
  rw [h1]
  simp only [if_neg hlt, if_pos hgt, sub_self, mul_zero, add_zero]
  unfold RFX.Quaternion.normalized RFX.Quaternion.magnitude
  simp only [h1, Real.sqrt_one, if_neg hεlt, div_one]

/-- Witness for C4's amended theorem at the unit quaternion `(1,0,0,0)`
and `t = 1/2`. -/
theorem c4_slerp_identity_unit_witness :
    (1 : ℝ) * 1 + 0 * 0 + 0 * 0 + 0 * 0 = 1 ∧ RFX.machineEps ≤ 1 ∧
    RFX.Quaternion.slerp RFX.machineEps ⟨1, 0, 0, 0⟩ ⟨1, 0, 0, 0⟩ (1 / 2) = some ⟨1, 0, 0, 0⟩ :=
  ⟨by norm_num, by norm_num [RFX.machineEps],
   c4_slerp_identity_unit RFX.machineEps (1 / 2) ⟨1, 0, 0, 0⟩ (by norm_num)
     (by norm_num [RFX.machineEps])⟩

/-- C10: `Sphere::contains` and `Sphere::intersects` depend on the radius
only through its square: `Sphere(c, r)` and `Sphere(c, -r)` return
identical results from `contains(p)` and from `intersects(ray, t)`,
including the reported `t`. -/
theorem c10_sphere_radius_sign (c : RFX.Vector3) (rad : ℝ) (p : RFX.Vector3) (r : RFX.Ray) :
    (RFX.Sphere.contains ⟨c, rad⟩ p ↔ RFX.Sphere.contains ⟨c, -rad⟩ p) ∧
    RFX.Sphere.intersects ⟨c, rad⟩ r = RFX.Sphere.intersects ⟨c, -rad⟩ r := by
  constructor
  · simp [RFX.Sphere.contains, neg_mul_neg]
  · simp [RFX.Sphere.intersects, neg_mul_neg]

/-- C9: two rectangles that `Rect::intersects` reports as disjoint (touching
edges included) have `Rect::intersection` equal to the zero rectangle. -/
theorem c9_rect_disjoint_intersection (a b : RFX.Rect) (h : ¬ RFX.Rect.intersects a b) :
    RFX.Rect.intersection a b = ⟨0, 0, 0, 0⟩ := by
  unfold RFX.Rect.intersects at h
  rw [not_not] at h
  have hneg : ¬ (Max.max a.x b.x < Min.min a.right b.right ∧
      Max.max a.y b.y < Min.min a.bottom b.bottom) := by
    rintro ⟨h1, h2⟩
    rcases h with h | h | h | h
    · have hm := min_le_left a.right b.right
      have hM := le_max_right a.x b.x
      linarith
    · have hm := min_le_right a.right b.right
      have hM := le_max_left a.x b.x
      linarith
    · have hm := min_le_left a.bottom b.bottom
      have hM := le_max_right a.y b.y
      linarith
    · have hm := min_le_right a.bottom b.bottom
      have hM := le_max_left a.y b.y
      linarith
  unfold RFX.Rect.intersection
  simp only [if_neg hneg]

/-- Witness for C9 at `r1 = (0,0,1,1)`, `r2 = (5,5,1,1)`. -/
theorem c9_rect_disjoint_intersection_witness :
    ¬ RFX.Rect.intersects ⟨0, 0, 1, 1⟩ ⟨5, 5, 1, 1⟩ ∧
    RFX.Rect.intersection ⟨0, 0, 1, 1⟩ ⟨5, 5, 1, 1⟩ = ⟨0, 0, 0, 0⟩ := by
  have hh : ¬ RFX.Rect.intersects ⟨0, 0, 1, 1⟩ ⟨5, 5, 1, 1⟩ := by
    norm_num [RFX.Rect.intersects, RFX.Rect.right, RFX.Rect.bottom]
  exact ⟨hh, c9_rect_disjoint_intersection _ _ hh⟩

/-- C5: `Vector3::slerp` clamps the dot product into `[-1,1]` before
`acos` and takes no shortest-arc flip: for unit vectors `a`, `b` that are
not near-parallel (`ε² ≤ 1 - (a·b)²`, so the internal normalization of
`b - a·dot` succeeds), `slerp(a, b, 1)` returns exactly `b` — also when
`a·b < 0`, i.e. near-opposite vectors interpolate through the long arc
`acos(a·b)` rather than flipping. -/
theorem c5_vector3_slerp_endpoint (ε : ℝ) (a b : RFX.Vector3)
    (ha : a.lengthSquared = 1) (hb : b.lengthSquared = 1)
    (hε : 0 < ε) (hsep : ε ^ 2 ≤ 1 - RFX.Vector3.dot a b ^ 2) :
    RFX.Vector3.slerp ε a b 1 = some b := by
  have hd2 : RFX.Vector3.dot a b ^ 2 ≤ 1 := by nlinarith [sq_nonneg ε]
  have hdl : -1 ≤ RFX.Vector3.dot a b := by nlinarith [sq_nonneg (RFX.Vector3.dot a b + 1)]
  have hdu : RFX.Vector3.dot a b ≤ 1 := by nlinarith [sq_nonneg (RFX.Vector3.dot a b - 1)]
  have hrelsq : (b.sub (a.smul (RFX.Vector3.dot a b))).lengthSquared =
      1 - RFX.Vector3.dot a b ^ 2 := by
    unfold RFX.Vector3.lengthSquared at ha hb ⊢
    unfold RFX.Vector3.sub RFX.Vector3.smul RFX.Vector3.dot
    linear_combination hb + (a.x * b.x + a.y * b.y + a.z * b.z) ^ 2 * ha
  have hL : (b.sub (a.smul (RFX.Vector3.dot a b))).length =
      Real.sqrt (1 - RFX.Vector3.dot a b ^ 2) := by
    unfold RFX.Vector3.length
    rw [hrelsq]
  have hεL : ε ≤ Real.sqrt (1 - RFX.Vector3.dot a b ^ 2) := by
    calc ε = Real.sqrt (ε ^ 2) := (Real.sqrt_sq hε.le).symm
    _ ≤ Real.sqrt (1 - RFX.Vector3.dot a b ^ 2) := Real.sqrt_le_sqrt hsep
  have hLpos : 0 < Real.sqrt (1 - RFX.Vector3.dot a b ^ 2) := lt_of_lt_of_le hε hεL
  have hnorm : RFX.Vector3.normalized ε (b.sub (a.smul (RFX.Vector3.dot a b))) =
      some ⟨(b.sub (a.smul (RFX.Vector3.dot a b))).x / Real.sqrt (1 - RFX.Vector3.dot a b ^ 2),
            (b.sub (a.smul (RFX.Vector3.dot a b))).y / Real.sqrt (1 - RFX.Vector3.dot a b ^ 2),
            (b.sub (a.smul (RFX.Vector3.dot a b))).z /
              Real.sqrt (1 - RFX.Vector3.dot a b ^ 2)⟩ := by
    unfold RFX.Vector3.normalized RFX.Vector3.divO
    rw [hL, if_neg (not_lt.mpr hεL),
      abs_of_nonneg (Real.sqrt_nonneg (1 - RFX.Vector3.dot a b ^ 2)),
      if_neg (not_lt.mpr hεL)]
  simp only [RFX.Vector3.slerp, max_eq_right hdl, min_eq_right hdu, mul_one]
  rw [Real.cos_arccos hdl hdu, Real.sin_arccos, hnorm]
  simp only [RFX.Vector3.add, RFX.Vector3.smul, RFX.Vector3.sub, Option.some.injEq]
  have hLne : Real.sqrt (1 - RFX.Vector3.dot a b ^ 2) ≠ 0 := ne_of_gt hLpos
  refine RFX.Vector3.ext ?_ ?_ ?_ <;>
    · simp only
      rw [div_mul_cancel₀ _ hLne]
      ring

/-- Witness for C5 at the unit vectors `a = (1,0,0)` and
`b = (-3/5, 4/5, 0)`, whose dot product `-3/5` is negative. -/
theorem c5_vector3_slerp_endpoint_witness :
    RFX.Vector3.lengthSquared ⟨1, 0, 0⟩ = 1 ∧
    RFX.Vector3.lengthSquared ⟨-3 / 5, 4 / 5, 0⟩ = 1 ∧
    (0 : ℝ) < RFX.machineEps ∧
    RFX.machineEps ^ 2 ≤ 1 - RFX.Vector3.dot ⟨1, 0, 0⟩ ⟨-3 / 5, 4 / 5, 0⟩ ^ 2 ∧
    RFX.Vector3.dot ⟨1, 0, 0⟩ ⟨-3 / 5, 4 / 5, 0⟩ < 0 ∧
    RFX.Vector3.slerp RFX.machineEps ⟨1, 0, 0⟩ ⟨-3 / 5, 4 / 5, 0⟩ 1 =
      some ⟨-3 / 5, 4 / 5, 0⟩ :=
  ⟨by norm_num [RFX.Vector3.lengthSquared],
   by norm_num [RFX.Vector3.lengthSquared],
   by norm_num [RFX.machineEps],
   by norm_num [RFX.Vector3.dot, RFX.machineEps],
   by norm_num [RFX.Vector3.dot],
   c5_vector3_slerp_endpoint RFX.machineEps ⟨1, 0, 0⟩ ⟨-3 / 5, 4 / 5, 0⟩
     (by norm_num [RFX.Vector3.lengthSquared])
     (by norm_num [RFX.Vector3.lengthSquared])
     (by norm_num [RFX.machineEps])
     (by norm_num [RFX.Vector3.dot, RFX.machineEps])⟩

/-- The plane with normal `(0,1,0)` and distance `0` from the C6 example. -/
def planeY : RFX.Plane := ⟨⟨0, 1, 0⟩, 0⟩

/-- The ray from `(0,5,0)` with direction `(0,-1,0)` from the C6 example. -/
def rayDown : RFX.Ray := ⟨⟨0, 5, 0⟩, ⟨0, -1, 0⟩⟩

/-- The ray from `(0,5,0)` with direction `(0,1,0)` from the C6 example. -/
def rayUp : RFX.Ray := ⟨⟨0, 5, 0⟩, ⟨0, 1, 0⟩⟩

/-- C6: `Plane::intersects` returns false when `|normal·direction| < ε`
and otherwise reports a hit exactly when the solved
`t = -(normal·origin + distance)/(normal·direction)` is nonnegative; on
the spec's example, the downward ray against the `y = 0` plane hits with
`t = 5` and the upward ray misses (hit behind the origin). -/
theorem c6_plane_ray_intersect (ε : ℝ) (pl : RFX.Plane) (r : RFX.Ray) :
    RFX.Plane.intersects ε pl r =
      (if |RFX.Vector3.dot pl.normal r.direction| < ε then none
       else if RFX.planeRayT pl r ≥ 0 then some (RFX.planeRayT pl r) else none) ∧
    RFX.Plane.fromNormalDistance RFX.machineEps ⟨0, 1, 0⟩ 0 = some planeY ∧
    RFX.Ray.make RFX.machineEps ⟨0, 5, 0⟩ ⟨0, -1, 0⟩ = some rayDown ∧
    RFX.Ray.make RFX.machineEps ⟨0, 5, 0⟩ ⟨0, 1, 0⟩ = some rayUp ∧
    RFX.Plane.intersects RFX.machineEps planeY rayDown = some 5 ∧
    RFX.Plane.intersects RFX.machineEps planeY rayUp = none := by
  have hlY : RFX.Vector3.length ⟨0, 1, 0⟩ = 1 := by
    unfold RFX.Vector3.length RFX.Vector3.lengthSquared
    norm_num
  have hlYm : RFX.Vector3.length ⟨0, -1, 0⟩ = 1 := by
    unfold RFX.Vector3.length RFX.Vector3.lengthSquared
    norm_num
  have ha1 : |(-1 : ℝ)| = 1 := by rw [abs_neg, abs_one]
  refine ⟨rfl, ?_, ?_, ?_, ?_, ?_⟩
  · unfold RFX.Plane.fromNormalDistance RFX.Vector3.normalized RFX.Vector3.divO
    rw [hlY]
    norm_num [RFX.machineEps, planeY]
  · unfold RFX.Ray.make RFX.Vector3.normalized RFX.Vector3.divO
    rw [hlYm]
    norm_num [RFX.machineEps, rayDown]
  · unfold RFX.Ray.make RFX.Vector3.normalized RFX.Vector3.divO
    rw [hlY]
    norm_num [RFX.machineEps, rayUp]
  · unfold RFX.Plane.intersects RFX.Vector3.dot planeY rayDown
    norm_num [RFX.machineEps, ha1]
  · unfold RFX.Plane.intersects RFX.Vector3.dot planeY rayUp
    norm_num [RFX.machineEps]

/-- C7: on the spec's example — ray origin `(-5,0,0)`, direction `(1,0,0)`
(already unit, so the `Ray` constructor keeps it), box `[-1,1]^3` — the
slab method reports a hit with `tMin = 4`, `tMax = 6`; the `y`/`z` axes
(direction component below epsilon) pass the parallel-slab
origin-containment check. -/
theorem c7_aabb_slab_eval :
    RFX.Ray.make RFX.machineEps ⟨-5, 0, 0⟩ ⟨1, 0, 0⟩ = some ⟨⟨-5, 0, 0⟩, ⟨1, 0, 0⟩⟩ ∧
    RFX.AABB.intersects RFX.machineEps ⟨⟨-1, -1, -1⟩, ⟨1, 1, 1⟩⟩ ⟨⟨-5, 0, 0⟩, ⟨1, 0, 0⟩⟩ =
      some (some (4, 6)) := by
  have hlX : RFX.Vector3.length ⟨1, 0, 0⟩ = 1 := by
    unfold RFX.Vector3.length RFX.Vector3.lengthSquared
    norm_num
  constructor
  · unfold RFX.Ray.make RFX.Vector3.normalized RFX.Vector3.divO
    rw [hlX]
    norm_num [RFX.machineEps]
  · unfold RFX.AABB.intersects RFX.AABB.slabStep
    norm_num [RFX.machineEps, min_def, max_def]

/-- C8: the in-place mutating operations that can signal errors
(`Vector2::operator/=`, `Vector3::operator/=`, `Vector2::normalize`,
`Vector3::normalize`) are atomic: whenever the call signals
(`DivisionByZero` / `DegenerateNormalize`), the vector's components are
left exactly as they were before the call. -/
theorem c8_inplace_error_atomic (ε : ℝ) (v3 : RFX.Vector3) (v2 : RFX.Vector2) (s : ℝ) :
    ((RFX.Vector3.divAssign ε v3 s).2 = true → (RFX.Vector3.divAssign ε v3 s).1 = v3) ∧
    ((RFX.Vector2.divAssign ε v2 s).2 = true → (RFX.Vector2.divAssign ε v2 s).1 = v2) ∧
    ((RFX.Vector3.normalizeInPlace ε v3).2 = true → (RFX.Vector3.normalizeInPlace ε v3).1 = v3) ∧
    ((RFX.Vector2.normalizeInPlace ε v2).2 = true → (RFX.Vector2.normalizeInPlace ε v2).1 = v2) := by
  refine ⟨?_, ?_, ?_, ?_⟩
  · unfold RFX.Vector3.divAssign
    by_cases h : |s| < ε <;> simp [h]
  · unfold RFX.Vector2.divAssign
    by_cases h : |s| < ε <;> simp [h]
  · unfold RFX.Vector3.normalizeInPlace RFX.Vector3.divAssign
    by_cases h : RFX.Vector3.length v3 < ε
    · simp [h]
    · by_cases h2 : |RFX.Vector3.length v3| < ε <;> simp [h, h2]
  · unfold RFX.Vector2.normalizeInPlace RFX.Vector2.divAssign
    by_cases h : RFX.Vector2.length v2 < ε
    · simp [h]
    · by_cases h2 : |RFX.Vector2.length v2| < ε <;> simp [h, h2]

/-- Witness for C8: dividing `(1,2,3)` and `(1,2)` by `0` signals, and the
components are unchanged. -/
theorem c8_inplace_error_atomic_witness :
    (RFX.Vector3.divAssign RFX.machineEps ⟨1, 2, 3⟩ 0).2 = true ∧
    (RFX.Vector3.divAssign RFX.machineEps ⟨1, 2, 3⟩ 0).1 = ⟨1, 2, 3⟩ ∧
    (RFX.Vector2.divAssign RFX.machineEps ⟨1, 2⟩ 0).2 = true ∧
    (RFX.Vector2.divAssign RFX.machineEps ⟨1, 2⟩ 0).1 = ⟨1, 2⟩ := by
  have h3 : (RFX.Vector3.divAssign RFX.machineEps ⟨1, 2, 3⟩ 0).2 = true := by
    norm_num [RFX.Vector3.divAssign, RFX.machineEps]
  have h2 : (RFX.Vector2.divAssign RFX.machineEps ⟨1, 2⟩ 0).2 = true := by
    norm_num [RFX.Vector2.divAssign, RFX.machineEps]
  exact ⟨h3, (c8_inplace_error_atomic RFX.machineEps ⟨1, 2, 3⟩ ⟨1, 2⟩ 0).1 h3,
         h2, (c8_inplace_error_atomic RFX.machineEps ⟨1, 2, 3⟩ ⟨1, 2⟩ 0).2.1 h2⟩
